import Mathlib

/-!
Shallow embedding of the premium-card renderer and its particle subsystem.

The particle system (Particle, ParticleEmitter, lerpColor, presets and the
house lookup tables) is translated from the particle module; the card
component (CARD_SIZES, HOUSE_COLORS, the loadCard layer assembly, the stats
and token overlay builders and the pointer handlers) is translated from the
PremiumCard component.  JS numbers are modelled as exact rationals, colors as
integers, and the JS falsy-default idiom v or-else d as an explicit test
against 0.  Randomness (Math.random inside getRandomParticleConfig) is
modelled by passing the sampled configurations in explicitly.
-/

/-- JS numeric default idiom: v || d yields d exactly when v is 0
(the only falsy number that can arise here). -/
def jsOr (v d : ℚ) : ℚ := if v = 0 then d else v

/-- JS default idiom for integer color fields. -/
def jsOrInt (v d : ℤ) : ℤ := if v = 0 then d else v

/-- JS Math.round: floor of x + 1/2 (rounds halves up). -/
def jsRound (q : ℚ) : ℤ := ⌊q + 1 / 2⌋

/-- Red channel of a packed color: (c >> 16) & 0xff.  For the nonnegative
24-bit values in play, shift-and-mask is floor-division and remainder. -/
def chR (c : ℤ) : ℤ := c / 0x10000 % 0x100

/-- Green channel of a packed color: (c >> 8) & 0xff. -/
def chG (c : ℤ) : ℤ := c / 0x100 % 0x100

/-- Blue channel of a packed color: c & 0xff. -/
def chB (c : ℤ) : ℤ := c % 0x100

/-- lerpColor(color1, color2, frac): splits both colors into R, G, B
channels, interpolates each channel linearly and rounds it with Math.round,
then repacks as (r << 16) | (g << 8) | b.  For channels in [0, 255] the
bitwise or of the three disjoint bit fields equals this weighted sum. -/
def lerpColor (color1 color2 : ℤ) (frac : ℚ) : ℤ :=
  jsRound ((chR color1 : ℚ) + ((chR color2 : ℚ) - (chR color1 : ℚ)) * frac) * 0x10000 +
    jsRound ((chG color1 : ℚ) + ((chG color2 : ℚ) - (chG color1 : ℚ)) * frac) * 0x100 +
    jsRound ((chB color1 : ℚ) + ((chB color2 : ℚ) - (chB color1 : ℚ)) * frac)

/-- The configuration object produced by getRandomParticleConfig (and, for
the pool, extended with an active flag by initParticlePool).  The concrete
sampled numbers are irrelevant to the claims, so configurations are passed
in explicitly instead of being drawn from Math.random. -/
structure PConfig where
  x : ℚ := 0
  y : ℚ := 0
  vx : ℚ := 0
  vy : ℚ := 0
  size : ℚ := 2
  color : ℤ := 0xffffff
  colorEnd : Option ℤ := none
  alphaStart : ℚ := 1
  alphaEnd : ℚ := 0
  lifetime : ℚ := 1
  gravity : ℚ := 0
  active : Bool := true

/-- A pooled particle; the mutable fields of the Particle class (the
Graphics object is pure rendering output and is omitted). -/
structure Particle where
  x : ℚ
  y : ℚ
  vx : ℚ
  vy : ℚ
  size : ℚ
  color : ℤ
  colorEnd : Option ℤ
  alpha : ℚ
  alphaStart : ℚ
  alphaEnd : ℚ
  lifetime : ℚ
  maxLifetime : ℚ
  gravity : ℚ
  active : Bool
deriving DecidableEq

/-- The Particle constructor.  Both call sites reach it through
initParticlePool, whose config never carries an alpha field, so
config.alpha || 1 is 1.  Note that the constructor sets active to true
unconditionally, ignoring the active flag in the config object. -/
def Particle.ofConfig (config : PConfig) : Particle where
  x := jsOr config.x 0
  y := jsOr config.y 0
  vx := jsOr config.vx 0
  vy := jsOr config.vy 0
  size := jsOr config.size 2
  color := jsOrInt config.color 0xffffff
  colorEnd := config.colorEnd
  alpha := 1
  alphaStart := jsOr config.alphaStart 1
  alphaEnd := jsOr config.alphaEnd 0
  lifetime := jsOr config.lifetime 1
  maxLifetime := jsOr config.lifetime 1
  gravity := jsOr config.gravity 0
  active := true

/-- Particle.reset: reseeds every kinematic field from a fresh config,
sets alpha to the configured alpha start, and activates the particle.
reset does not assign colorEnd, which keeps its constructor-time value. -/
def Particle.reset (p : Particle) (config : PConfig) : Particle where
  x := jsOr config.x 0
  y := jsOr config.y 0
  vx := jsOr config.vx 0
  vy := jsOr config.vy 0
  size := jsOr config.size 2
  color := jsOrInt config.color 0xffffff
  colorEnd := p.colorEnd
  alpha := jsOr config.alphaStart 1
  alphaStart := jsOr config.alphaStart 1
  alphaEnd := jsOr config.alphaEnd 0
  lifetime := jsOr config.lifetime 1
  maxLifetime := jsOr config.lifetime 1
  gravity := jsOr config.gravity 0
  active := true

/-- Particle.update(delta): integrates position and vertical velocity,
decrements the lifetime, deactivates when the lifetime has run out
(returning before any alpha, color or size refresh), and otherwise
recomputes alpha and color from the remaining-lifetime fraction and
shrinks the size by the fixed factor 0.99. -/
def Particle.update (p : Particle) (delta : ℚ) : Particle :=
  if p.active = false then p
  else
    let x := p.x + p.vx * delta
    let y := p.y + p.vy * delta
    let vy := p.vy + p.gravity * delta
    let lifetime := p.lifetime - delta
    if lifetime ≤ 0 then
      { p with x := x, y := y, vy := vy, lifetime := lifetime, active := false }
    else
      let lifeFrac := lifetime / p.maxLifetime
      { p with
        x := x
        y := y
        vy := vy
        lifetime := lifetime
        alpha := p.alphaEnd + (p.alphaStart - p.alphaEnd) * lifeFrac
        color :=
          match p.colorEnd with
          | some ce => lerpColor ce p.color lifeFrac
          | none => p.color
        size := p.size * 0.99 }

/-- One named preset of PARTICLE_PRESETS.  The spread field is stored in
units of pi, since the source stores rational multiples of Math.PI; it is
only consumed by the random angle sampler and never by the claims. -/
structure ParticlePreset where
  count : ℕ
  lifetimeMin : ℚ
  lifetimeMax : ℚ
  speedMin : ℚ
  speedMax : ℚ
  sizeMin : ℚ
  sizeMax : ℚ
  color : ℤ
  colorEnd : Option ℤ := none
  alphaStart : ℚ
  alphaEnd : ℚ
  gravity : ℚ
  spreadPi : ℚ
  emitRate : ℚ
deriving DecidableEq

/-- The sparkle preset (also the default config of the emitter constructor
and the fallback preset for unknown houses). -/
def sparklePreset : ParticlePreset where
  count := 15
  lifetimeMin := 0.5
  lifetimeMax := 1.5
  speedMin := 20
  speedMax := 50
  sizeMin := 1
  sizeMax := 3
  color := 0xffd700
  colorEnd := none
  alphaStart := 1
  alphaEnd := 0
  gravity := -10
  spreadPi := 2
  emitRate := 5

/-- PARTICLE_PRESETS: the six named particle configurations. -/
def PARTICLE_PRESETS : List (String × ParticlePreset) :=
  [("sparkle", sparklePreset),
   ("fire",
    { count := 20, lifetimeMin := 0.3, lifetimeMax := 0.8, speedMin := 30, speedMax := 60,
      sizeMin := 2, sizeMax := 5, color := 0xff6600, colorEnd := some 0xff0000,
      alphaStart := 0.8, alphaEnd := 0, gravity := -50, spreadPi := 1 / 4, emitRate := 10 }),
   ("ice",
    { count := 12, lifetimeMin := 1, lifetimeMax := 2, speedMin := 10, speedMax := 30,
      sizeMin := 2, sizeMax := 4, color := 0x00ffff, colorEnd := none,
      alphaStart := 0.6, alphaEnd := 0, gravity := 5, spreadPi := 2, emitRate := 3 }),
   ("shadow",
    { count := 10, lifetimeMin := 1, lifetimeMax := 2, speedMin := 5, speedMax := 15,
      sizeMin := 3, sizeMax := 6, color := 0x330066, colorEnd := none,
      alphaStart := 0.4, alphaEnd := 0, gravity := -5, spreadPi := 2, emitRate := 2 }),
   ("holy",
    { count := 8, lifetimeMin := 1.5, lifetimeMax := 3, speedMin := 15, speedMax := 25,
      sizeMin := 2, sizeMax := 4, color := 0xffffcc, colorEnd := none,
      alphaStart := 0.7, alphaEnd := 0, gravity := -20, spreadPi := 1 / 6, emitRate := 2 }),
   ("nature",
    { count := 12, lifetimeMin := 2, lifetimeMax := 4, speedMin := 10, speedMax := 20,
      sizeMin := 2, sizeMax := 3, color := 0x00ff00, colorEnd := none,
      alphaStart := 0.5, alphaEnd := 0, gravity := 10, spreadPi := 1, emitRate := 2 })]

/-- HOUSE_PARTICLES: house identifier to preset name. -/
def HOUSE_PARTICLES : List (String × String) :=
  [("brobnar", "fire"), ("dis", "shadow"), ("logos", "sparkle"), ("mars", "fire"),
   ("sanctum", "holy"), ("shadows", "shadow"), ("untamed", "nature"), ("saurian", "fire"),
   ("staralliance", "sparkle"), ("unfathomable", "ice"), ("ekwidon", "sparkle"),
   ("geistoid", "ice"), ("skyborn", "sparkle"), ("redemption", "holy")]

/-- The ParticleEmitter state: its (merged) config, the particle pool, the
emission accumulator and the running flag.  The Container and Ticker
machinery is rendering plumbing and is omitted. -/
structure ParticleEmitter where
  config : ParticlePreset
  particles : List Particle
  emitTimer : ℚ
  active : Bool

/-- One iteration of the emit loop: particles.find of the first inactive
particle, reset with a freshly sampled config; a no-op when every pooled
particle is already active. -/
def emitOnce (ps : List Particle) (config : PConfig) : List Particle :=
  match ps with
  | [] => []
  | p :: rest => if p.active then p :: emitOnce rest config else p.reset config :: rest

/-- ParticleEmitter.emit(count): count loop iterations, each resetting the
first inactive particle with an independently sampled config.  The list
cfgs carries the count sampled configs, one per iteration. -/
def ParticleEmitter.emit (e : ParticleEmitter) (cfgs : List PConfig) : ParticleEmitter :=
  { e with particles := cfgs.foldl emitOnce e.particles }

/-- ParticleEmitter.burst(count) simply forwards to emit(count). -/
def ParticleEmitter.burst (e : ParticleEmitter) (cfgs : List PConfig) : ParticleEmitter :=
  e.emit cfgs

/-- initParticlePool: count constructor calls, each spreading a sampled
config extended with active := false into the Particle constructor. -/
def initParticlePool (count : ℕ) (sample : ℕ → PConfig) : List Particle :=
  (List.range count).map fun i => Particle.ofConfig { sample i with active := false }

/-- The ParticleEmitter constructor: merges the given (complete) preset
over the sparkle default, which yields the given preset, pre-creates the
pool and starts active with an empty accumulator. -/
def mkParticleEmitter (config : ParticlePreset) (sample : ℕ → PConfig) : ParticleEmitter where
  config := config
  particles := initParticlePool config.count sample
  emitTimer := 0
  active := true

/-- The accumulator-draining while loop of ParticleEmitter.update:
while t is at least the emit interval, emit once and subtract the interval.
Returns the drained accumulator together with the number of iterations.
The positivity guard on the interval reflects that the source loop only
terminates for a positive interval. -/
def drain (emitInterval t : ℚ) : ℚ × ℕ :=
  if h : 0 < emitInterval ∧ emitInterval ≤ t then
    let r := drain emitInterval (t - emitInterval)
    (r.1, r.2 + 1)
  else (t, 0)
termination_by (⌊t / emitInterval⌋).toNat
decreasing_by
  obtain ⟨hi, hit⟩ := h
  have h1 : (1 : ℚ) ≤ t / emitInterval := (one_le_div hi).mpr hit
  have h2 : ⌊(t - emitInterval) / emitInterval⌋ = ⌊t / emitInterval⌋ - 1 := by
    rw [sub_div, div_self (ne_of_gt hi)]
    rw [show ⌊t / emitInterval - 1⌋ = ⌊t / emitInterval - ((1 : ℤ) : ℚ)⌋ by norm_num,
      Int.floor_sub_int]
  have h3 : (1 : ℤ) ≤ ⌊t / emitInterval⌋ := by
    exact_mod_cast Int.le_floor.mpr (by exact_mod_cast h1)
  omega

/-- ParticleEmitter.update(ticker): returns early when the emitter is
stopped; otherwise accumulates the elapsed seconds, drains the accumulator
emitting one particle per full interval, then updates every pooled
particle.  The second component records how many timed emissions the call
performed (the number of emit(1) calls made by the drain loop). -/
def ParticleEmitter.update (e : ParticleEmitter) (delta : ℚ) (sample : ℕ → PConfig) :
    ParticleEmitter × ℕ :=
  if e.active = false then (e, 0)
  else
    let t := e.emitTimer + delta
    let emitInterval := 1 / e.config.emitRate
    let d := drain emitInterval t
    let afterEmit := (List.range d.2).foldl (fun ps i => emitOnce ps (sample i)) e.particles
    ({ e with emitTimer := d.1, particles := afterEmit.map (fun p => p.update delta) }, d.2)

/-- Driver harness: feeds a list of per-frame elapsed times to update,
summing the timed emissions performed across the calls. -/
def feedDeltas (e : ParticleEmitter) (sample : ℕ → PConfig) : List ℚ → ParticleEmitter × ℕ
  | [] => (e, 0)
  | d :: ds =>
    let r := e.update d sample
    let rest := feedDeltas r.1 sample ds
    (rest.1, r.2 + rest.2)

/-- The externally reachable pool operations of an emitter: emit, burst
and a frame update (with the sampled configs passed in explicitly). -/
inductive EmitterOp where
  | emit (cfgs : List PConfig)
  | burst (cfgs : List PConfig)
  | frame (delta : ℚ) (sample : ℕ → PConfig)

/-- Applies one emitter operation. -/
def applyOp (e : ParticleEmitter) : EmitterOp → ParticleEmitter
  | .emit cfgs => e.emit cfgs
  | .burst cfgs => e.burst cfgs
  | .frame delta sample => (e.update delta sample).1

/-- Runs a sequence of emitter operations. -/
def runOps (e : ParticleEmitter) (ops : List EmitterOp) : ParticleEmitter :=
  ops.foldl applyOp e

/-- The number of simultaneously active particles of an emitter. -/
def activeCount (e : ParticleEmitter) : ℕ :=
  (e.particles.filter fun p => p.active).length

/-- createHouseEmitter resolves HOUSE_PARTICLES[house] || sparkle to a
preset name; this is the preset record the emitter is then built from. -/
def housePresetName (house : String) : String :=
  (HOUSE_PARTICLES.lookup house).getD "sparkle"

/-- The preset record selected by createHouseEmitter for a house. -/
def createHouseEmitterConfig (house : String) : Option ParticlePreset :=
  PARTICLE_PRESETS.lookup (housePresetName house)

/-- A named card size profile of CARD_SIZES. -/
structure SizeProfile where
  width : ℕ
  height : ℕ
  scale : ℚ
deriving DecidableEq

/-- CARD_SIZES.normal, also the fallback profile for unknown size names. -/
def CARD_SIZES_normal : SizeProfile where
  width := 65
  height := 91
  scale := 1.0

/-- CARD_SIZES: the four enumerated size presets. -/
def CARD_SIZES : List (String × SizeProfile) :=
  [("small", { width := 39, height := 55, scale := 0.6 }),
   ("normal", CARD_SIZES_normal),
   ("large", { width := 91, height := 127, scale := 1.4 }),
   ("x-large", { width := 130, height := 182, scale := 2.0 })]

/-- cardSize resolution: CARD_SIZES[size] || CARD_SIZES.normal, with the
React default parameter making an absent size prop the name normal. -/
def cardSizeFor (size : Option String) : SizeProfile :=
  (CARD_SIZES.lookup (size.getD "normal")).getD CARD_SIZES_normal

/-- The pixel dimensions of the rendered surface: the wrapping div is
styled with exactly the resolved width and height. -/
def surfaceDims (size : Option String) : ℕ × ℕ :=
  ((cardSizeFor size).width, (cardSizeFor size).height)

/-- A house color theme of HOUSE_COLORS. -/
structure HouseTheme where
  primary : ℤ
  secondary : ℤ
deriving DecidableEq

/-- HOUSE_COLORS.shadows, also the fallback theme for unknown houses. -/
def shadowsTheme : HouseTheme where
  primary := 0x4a4a4a
  secondary := 0x808080

/-- HOUSE_COLORS: house identifier to color theme. -/
def HOUSE_COLORS : List (String × HouseTheme) :=
  [("brobnar", { primary := 0xff6b35, secondary := 0xffa366 }),
   ("dis", { primary := 0x9933ff, secondary := 0xcc99ff }),
   ("logos", { primary := 0x00bfff, secondary := 0x66d9ff }),
   ("mars", { primary := 0xff3333, secondary := 0xff6666 }),
   ("sanctum", { primary := 0xffd700, secondary := 0xffeb99 }),
   ("shadows", shadowsTheme),
   ("untamed", { primary := 0x33cc33, secondary := 0x66ff66 }),
   ("saurian", { primary := 0xcc9900, secondary := 0xffcc33 }),
   ("staralliance", { primary := 0x6699ff, secondary := 0x99ccff }),
   ("unfathomable", { primary := 0x006699, secondary := 0x3399cc }),
   ("ekwidon", { primary := 0x996633, secondary := 0xcc9966 }),
   ("geistoid", { primary := 0x99cccc, secondary := 0xccffff }),
   ("skyborn", { primary := 0x66ccff, secondary := 0x99e6ff }),
   ("redemption", { primary := 0xff9900, secondary := 0xffcc66 })]

/-- The houses enumerated by the two lookup tables. -/
def knownHouses : List String :=
  ["brobnar", "dis", "logos", "mars", "sanctum", "shadows", "untamed", "saurian",
   "staralliance", "unfathomable", "ekwidon", "geistoid", "skyborn", "redemption"]

/-- Theme resolution: HOUSE_COLORS[card.house] || HOUSE_COLORS.shadows. -/
def houseColorsFor (house : String) : HouseTheme :=
  (HOUSE_COLORS.lookup house).getD shadowsTheme

/-- The card record fields the component reads (card.type is ctype). -/
structure CardRecord where
  id : ℕ := 0
  house : String := ""
  ctype : String := ""
  facedown : Bool := false
  power : Option ℤ := none
  modifiedPower : Option ℤ := none
  armor : Option ℤ := none
  tokens : List (String × ℤ) := []
  exhausted : Bool := false
deriving DecidableEq

/-- The compositing layers named by the z-order part of the design. -/
inductive Layer where
  | shadow
  | baseFrame
  | art
  | mask
  | overlay
  | text
  | stats
  | effect
  | token
  | highlight
deriving DecidableEq

/-- The fixed z-order list of the design document, back to front. -/
def specZOrder : List Layer :=
  [.shadow, .baseFrame, .art, .mask, .overlay, .text, .stats, .effect, .token, .highlight]

/-- The child order loadCard actually produces, back to front. -/
def codeZOrder : List Layer :=
  [.shadow, .art, .baseFrame, .stats, .token]

/-- The children of the card container in the order loadCard adds them:
shadow, then the art sprite, then the frame overlay (the source comment
calls it rendered on top), then the stats overlay for non-facedown
creatures, then the token overlay when the token map is non-empty.  The
size preset and the premium flag do not change which child is added when:
premium only toggles the sprite filter and the frame stroke content. -/
def loadCardLayers (isCreature facedown hasTokens : Bool) : List Layer :=
  [.shadow, .art, .baseFrame] ++
    (if isCreature && !facedown then [.stats] else []) ++
    (if hasTokens then [.token] else [])

/-- JS truthiness of an optional numeric table entry: an absent entry and
the number 0 are falsy, every other number is truthy. -/
def jsTruthyOpt (o : Option ℤ) : Bool :=
  match o with
  | none => false
  | some v => v != 0

/-- The token-type color table of createTokenOverlay. -/
def tokenColors : List (String × ℤ) :=
  [("damage", 0xff0000), ("amber", 0xffd700), ("power", 0x00ff00), ("armor", 0x808080),
   ("stun", 0xffff00), ("ward", 0x00ffff), ("enrage", 0xff6600)]

/-- One rendered token disc: its type, the count shown inside, the disc
color, and the grid cell; position.set places the disc affinely in the
cell, at 15 * scale + col * 22 * scale and height / 2 + row * 22 * scale. -/
structure TokenDisc where
  tokenType : String
  count : ℤ
  color : ℤ
  col : ℕ
  row : ℕ
deriving DecidableEq

/-- createTokenOverlay: walks the token entries in order; an entry with a
positive count and a truthy color table entry renders one disc at grid
cell (index % 3, index / 3) and increments index, every other entry is
skipped without touching index. -/
def createTokenOverlay : List (String × ℤ) → ℕ → List TokenDisc
  | [], _ => []
  | (tokenType, count) :: rest, index =>
    if 0 < count ∧ jsTruthyOpt (tokenColors.lookup tokenType) = true then
      { tokenType := tokenType, count := count,
        color := (tokenColors.lookup tokenType).getD 0,
        col := index % 3, row := index / 3 } :: createTokenOverlay rest (index + 1)
    else createTokenOverlay rest index

/-- The disc a qualifying token entry at running index i produces. -/
def mkTokenDisc (p : ℕ × String × ℤ) : TokenDisc where
  tokenType := p.2.1
  count := p.2.2
  color := (tokenColors.lookup p.2.1).getD 0
  col := p.1 % 3
  row := p.1 / 3

/-- The argument handleMouseEnter passes to the host onMouseOver callback:
the card record under the key image, and the string literal normal as the
size, whatever size prop the surface was mounted with. -/
structure HoverPayload where
  image : CardRecord
  size : String
deriving DecidableEq

/-- handleMouseEnter builds its callback payload ignoring the size prop. -/
def handleMouseEnterPayload (card : CardRecord) (sizeProp : String) : HoverPayload :=
  { image := card, size := "normal" }

/-- handleMouseLeave invokes onMouseOut with no argument at all. -/
def handleMouseLeavePayload : Option HoverPayload := none

/-- The internal hover and pointer state of the component. -/
structure PointerState where
  isHovered : Bool
  mouseX : ℚ
  mouseY : ℚ
deriving DecidableEq

/-- handleMouseEnter state change: setIsHovered(true). -/
def handleMouseEnterState (st : PointerState) : PointerState :=
  { st with isHovered := true }

/-- handleMouseLeave state change: setIsHovered(false) and recenter the
pointer at (0.5, 0.5). -/
def handleMouseLeaveState (st : PointerState) : PointerState :=
  { isHovered := false, mouseX := 1 / 2, mouseY := 1 / 2 }

/-- handleMouseMove state change: store the normalized pointer position. -/
def handleMouseMoveState (st : PointerState) (x y : ℚ) : PointerState :=
  { st with mouseX := x, mouseY := y }

/-- A concrete inert card record for concrete instances. -/
def emptyCard : CardRecord := {}

/-- A concrete particle as reset would produce it from the default config:
alpha 1, alpha range from 1 down to 0, one second of lifetime. -/
def probeParticle : Particle where
  x := 0
  y := 0
  vx := 0
  vy := 0
  size := 2
  color := 0xffffff
  colorEnd := none
  alpha := 1
  alphaStart := 1
  alphaEnd := 0
  lifetime := 1
  maxLifetime := 1
  gravity := 0
  active := true

/-- A fixed sampling stream for concrete emitter instances. -/
def defaultSample : ℕ → PConfig := fun _ => {}

/-! Helper lemmas: the pool never changes size. -/

/-- One emit iteration resets a particle in place, never growing the pool. -/
theorem emitOnce_length (ps : List Particle) (config : PConfig) :
    (emitOnce ps config).length = ps.length := by
  induction ps with
  | nil => rfl
  | cons p rest ih =>
    rw [emitOnce]
    by_cases h : p.active <;> simp [h, ih]

/-- Folding emit iterations over any config list preserves the pool size. -/
theorem foldl_emitOnce_length (cfgs : List PConfig) :
    ∀ ps : List Particle, (cfgs.foldl emitOnce ps).length = ps.length := by
  induction cfgs with
  | nil => intro ps; rfl
  | cons c rest ih => intro ps; rw [List.foldl_cons, ih, emitOnce_length]

/-- The drain-loop emissions of one update call preserve the pool size. -/
theorem foldl_range_emitOnce_length (n : ℕ) (sample : ℕ → PConfig) :
    ∀ ps : List Particle,
      ((List.range n).foldl (fun ps i => emitOnce ps (sample i)) ps).length = ps.length := by
  induction n with
  | zero => intro ps; rfl
  | succ n ih =>
    intro ps
    rw [List.range_succ, List.foldl_append, List.foldl_cons, List.foldl_nil, emitOnce_length, ih]

/-- A frame update preserves the pool size. -/
theorem update_particles_length (e : ParticleEmitter) (delta : ℚ) (sample : ℕ → PConfig) :
    (e.update delta sample).1.particles.length = e.particles.length := by
  rw [ParticleEmitter.update]
  by_cases h : e.active = false <;>
    simp [h, List.length_map, foldl_range_emitOnce_length]

/-- Every reachable emitter operation preserves the pool size. -/
theorem applyOp_particles_length (e : ParticleEmitter) (op : EmitterOp) :
    (applyOp e op).particles.length = e.particles.length := by
  cases op with
  | emit cfgs => simp [applyOp, ParticleEmitter.emit, foldl_emitOnce_length]
  | burst cfgs => simp [applyOp, ParticleEmitter.burst, ParticleEmitter.emit, foldl_emitOnce_length]
  | frame delta sample => exact update_particles_length e delta sample

/-- Any operation sequence preserves the pool size. -/
theorem runOps_particles_length (ops : List EmitterOp) :
    ∀ e : ParticleEmitter, (runOps e ops).particles.length = e.particles.length := by
  induction ops with
  | nil => intro e; rfl
  | cons op rest ih =>
    intro e
    have h := ih (applyOp e op)
    simp only [runOps, List.foldl_cons] at h ⊢
    rw [h, applyOp_particles_length]

/-- The freshly built pool has exactly the configured number of members. -/
theorem initParticlePool_length (count : ℕ) (sample : ℕ → PConfig) :
    (initParticlePool count sample).length = count := by
  simp [initParticlePool]

/-- C1: for every emitter and every finite sequence of emit, burst and
frame operations with arbitrary arguments, the number of simultaneously
active particles never exceeds the configured count; the pool holds
exactly count Particle objects throughout and no operation allocates: the
pool length stays the constructor-time count after any operation
sequence. -/
theorem emitter_pool_bound (config : ParticlePreset) (sample : ℕ → PConfig)
    (ops : List EmitterOp) :
    activeCount (runOps (mkParticleEmitter config sample) ops) ≤ config.count ∧
    (runOps (mkParticleEmitter config sample) ops).particles.length = config.count := by
  have hlen : (runOps (mkParticleEmitter config sample) ops).particles.length = config.count := by
    rw [runOps_particles_length]
    exact initParticlePool_length config.count sample
  refine ⟨?_, hlen⟩
  calc activeCount (runOps (mkParticleEmitter config sample) ops)
      ≤ (runOps (mkParticleEmitter config sample) ops).particles.length :=
        List.length_filter_le _ _
    _ = config.count := hlen

/-- C4: the Particle constructor sets active to true unconditionally,
ignoring the active := false flag that initParticlePool passes, so right
after pool initialization every pooled particle is active (the pool does
have exactly count members).  This contradicts the documented lifecycle
(created inactive at pool-init time) and the intent visible at the call
site. -/
theorem initParticlePool_all_active (count : ℕ) (sample : ℕ → PConfig) :
    ((initParticlePool count sample).all fun p => p.active) = true ∧
    (initParticlePool count sample).length = count := by
  refine ⟨?_, initParticlePool_length count sample⟩
  simp [initParticlePool, List.all_eq_true, Particle.ofConfig]

/-- An inactive particle is left untouched by update. -/
theorem update_inactive (p : Particle) (delta : ℚ) (h : p.active = false) :
    p.update delta = p := by
  simp [Particle.update, h]

/-- An active particle whose lifetime runs out is deactivated with its
position advanced but alpha, color and size untouched. -/
theorem update_dead (p : Particle) (delta : ℚ) (h : p.active = true)
    (h2 : p.lifetime - delta ≤ 0) :
    p.update delta =
      { p with
        x := p.x + p.vx * delta
        y := p.y + p.vy * delta
        vy := p.vy + p.gravity * delta
        lifetime := p.lifetime - delta
        active := false } := by
  simp [Particle.update, h, h2]

/-- An active particle with lifetime remaining advances and refreshes
alpha, color and size from the remaining-lifetime fraction. -/
theorem update_live (p : Particle) (delta : ℚ) (h : p.active = true)
    (h2 : ¬p.lifetime - delta ≤ 0) :
    p.update delta =
      { p with
        x := p.x + p.vx * delta
        y := p.y + p.vy * delta
        vy := p.vy + p.gravity * delta
        lifetime := p.lifetime - delta
        alpha := p.alphaEnd +
          (p.alphaStart - p.alphaEnd) * ((p.lifetime - delta) / p.maxLifetime)
        color :=
          match p.colorEnd with
          | some ce => lerpColor ce p.color ((p.lifetime - delta) / p.maxLifetime)
          | none => p.color
        size := p.size * 0.99 } := by
  simp [Particle.update, h, h2]

/-- C3 counterexample: take a just-reset particle with alphaStart 1,
alphaEnd 0 and one second of lifetime, and advance it by exactly its
remaining lifetime.  The step drives the remaining lifetime to 0, but the
update deactivates the particle and returns before recomputing alpha, so
alpha stays 1 instead of reaching the alpha-end bound 0. -/
theorem update_alpha_at_death_counterexample :
    (probeParticle.update 1).lifetime = 0 ∧
    (probeParticle.update 1).active = false ∧
    (probeParticle.update 1).alpha = 1 ∧
    probeParticle.alphaEnd = 0 ∧
    (probeParticle.update 1).alpha ≠ probeParticle.alphaEnd := by
  norm_num [Particle.update, probeParticle]

/-- C3 (amended): for every particle whose alpha lies within
[min(alphaStart, alphaEnd), max(alphaStart, alphaEnd)] and whose remaining
lifetime does not exceed its original lifetime, an update step with
nonnegative delta keeps alpha within that interval; at the step in which
the remaining lifetime reaches 0 the particle is deactivated with its
alpha unchanged (alpha is not set to the alpha-end bound). -/
theorem update_alpha_bounds (p : Particle) (delta : ℚ)
    (hδ : 0 ≤ delta) (hl : p.lifetime ≤ p.maxLifetime) (hm : 0 < p.maxLifetime)
    (hlo : min p.alphaStart p.alphaEnd ≤ p.alpha)
    (hhi : p.alpha ≤ max p.alphaStart p.alphaEnd) :
    (min p.alphaStart p.alphaEnd ≤ (p.update delta).alpha ∧
      (p.update delta).alpha ≤ max p.alphaStart p.alphaEnd) ∧
    ((p.update delta).active = false → (p.update delta).alpha = p.alpha) := by
  by_cases ha0 : p.active = false
  · rw [update_inactive p delta ha0]
    exact ⟨⟨hlo, hhi⟩, fun _ => rfl⟩
  · have ha : p.active = true := by
      cases hb : p.active
      · exact absurd hb ha0
      · rfl
    by_cases hd : p.lifetime - delta ≤ 0
    · rw [update_dead p delta ha hd]
      exact ⟨⟨hlo, hhi⟩, fun _ => rfl⟩
    · rw [update_live p delta ha hd]
      have hup : 0 < p.lifetime - delta := by linarith [not_le.mp hd]
      have hf0 : 0 ≤ (p.lifetime - delta) / p.maxLifetime :=
        div_nonneg (le_of_lt hup) (le_of_lt hm)
      have hf1 : (p.lifetime - delta) / p.maxLifetime ≤ 1 :=
        (div_le_one hm).mpr (by linarith)
      refine ⟨⟨?_, ?_⟩, ?_⟩
      · show min p.alphaStart p.alphaEnd ≤
          p.alphaEnd + (p.alphaStart - p.alphaEnd) * ((p.lifetime - delta) / p.maxLifetime)
        rcases le_total p.alphaStart p.alphaEnd with h | h
        · rw [min_eq_left h]
          nlinarith [hf0, hf1, h]
        · rw [min_eq_right h]
          nlinarith [hf0, hf1, h]
      · show p.alphaEnd + (p.alphaStart - p.alphaEnd) * ((p.lifetime - delta) / p.maxLifetime) ≤
          max p.alphaStart p.alphaEnd
        rcases le_total p.alphaStart p.alphaEnd with h | h
        · rw [max_eq_right h]
          nlinarith [hf0, hf1, h]
        · rw [max_eq_left h]
          nlinarith [hf0, hf1, h]
      · intro hcontr
        have : p.active = false := hcontr
        rw [ha] at this
        cases this

/-- Closed instance of update_alpha_bounds at the probe particle and a
half-second step. -/
theorem update_alpha_bounds_witness :
    (min probeParticle.alphaStart probeParticle.alphaEnd ≤ (probeParticle.update (1 / 2)).alpha ∧
      (probeParticle.update (1 / 2)).alpha ≤ max probeParticle.alphaStart probeParticle.alphaEnd) ∧
    ((probeParticle.update (1 / 2)).active = false →
      (probeParticle.update (1 / 2)).alpha = probeParticle.alpha) :=
  update_alpha_bounds probeParticle (1 / 2) (by norm_num)
    (by norm_num [probeParticle]) (by norm_num [probeParticle])
    (by norm_num [probeParticle]) (by norm_num [probeParticle])

/-- C5 counterexample: loadCard adds the art sprite before the frame (the
source comment says the frame overlay is rendered on top), so already for
a plain non-creature card without tokens the produced child list
shadow, art, base-frame is not a subsequence of the documented z-order
list, which puts base-frame before art. -/
theorem loadCard_order_counterexample :
    ¬ List.Sublist (loadCardLayers false false false) specZOrder := by
  decide

/-- C5 (amended): for every card kind, facedown flag and token presence
(the size preset and premium flag do not influence child order), the
children of the built scene, enumerated in composition order, form a
subsequence of the fixed list shadow < art < base-frame < stats < token:
the base-frame is always composed above (after) the art layer, and no
build path reorders present layers. -/
theorem loadCard_order_amended :
    ∀ isCreature facedown hasTokens : Bool,
      List.Sublist (loadCardLayers isCreature facedown hasTokens) codeZOrder := by
  decide

/-- C6 counterexample: a surface mounted with the size prop large resolves
the large profile, yet handleMouseEnter fires the hover callback with the
string literal normal in the size field (and the card record under the key
image, not card); handleMouseLeave invokes its callback with no argument
at all. -/
theorem hover_payload_counterexample :
    (handleMouseEnterPayload emptyCard "large").size = "normal" ∧
    "normal" ≠ "large" ∧
    CARD_SIZES.lookup "large" = some { width := 91, height := 127, scale := 1.4 } ∧
    handleMouseLeavePayload = none := by
  refine ⟨rfl, by decide, by simp [CARD_SIZES, List.lookup], rfl⟩

/-- C6 (amended): enter fires the hover callback with the original card
record under the key image and the constant string normal as size,
regardless of the size prop; leave fires its callback with no payload;
enter, leave and move otherwise only update the internal hover flag and
pointer position (enter sets hovered, leave clears hovered and recenters
the pointer at (0.5, 0.5), move stores the pointer position). -/
theorem hover_payload_amended (card : CardRecord) (s : String) (st : PointerState) (x y : ℚ) :
    (handleMouseEnterPayload card s).image = card ∧
    (handleMouseEnterPayload card s).size = "normal" ∧
    handleMouseLeavePayload = none ∧
    (handleMouseEnterState st).isHovered = true ∧
    (handleMouseEnterState st).mouseX = st.mouseX ∧
    (handleMouseEnterState st).mouseY = st.mouseY ∧
    (handleMouseLeaveState st).isHovered = false ∧
    (handleMouseLeaveState st).mouseX = 1 / 2 ∧
    (handleMouseLeaveState st).mouseY = 1 / 2 ∧
    (handleMouseMoveState st x y).isHovered = st.isHovered ∧
    (handleMouseMoveState st x y).mouseX = x ∧
    (handleMouseMoveState st x y).mouseY = y :=
  ⟨rfl, rfl, rfl, rfl, rfl, rfl, rfl, rfl, rfl, rfl, rfl, rfl⟩

/-- The drain loop terminates with the accumulator reduced by one interval
per iteration, left nonnegative and strictly below the interval. -/
theorem drain_spec (emitInterval : ℚ) (hi : 0 < emitInterval) :
    ∀ t : ℚ, 0 ≤ t →
      (drain emitInterval t).1 = t - ((drain emitInterval t).2 : ℚ) * emitInterval ∧
      0 ≤ (drain emitInterval t).1 ∧ (drain emitInterval t).1 < emitInterval := by
  suffices H : ∀ n : ℕ, ∀ t : ℚ, 0 ≤ t → (⌊t / emitInterval⌋).toNat ≤ n →
      (drain emitInterval t).1 = t - ((drain emitInterval t).2 : ℚ) * emitInterval ∧
      0 ≤ (drain emitInterval t).1 ∧ (drain emitInterval t).1 < emitInterval by
    intro t ht
    exact H (⌊t / emitInterval⌋).toNat t ht le_rfl
  intro n
  induction n with
  | zero =>
    intro t ht hn
    have hneg : ¬(0 < emitInterval ∧ emitInterval ≤ t) := by
      rintro ⟨_, hit⟩
      have h1 : (1 : ℤ) ≤ ⌊t / emitInterval⌋ := by
        apply Int.le_floor.mpr
        push_cast
        exact (one_le_div hi).mpr hit
      omega
    rw [drain, dif_neg hneg]
    have hlt : t < emitInterval := by
      rcases not_and_or.mp hneg with h | h
      · exact absurd hi h
      · linarith [not_le.mp h]
    exact ⟨by push_cast; ring, ht, hlt⟩
  | succ n ih =>
    intro t ht hn
    rw [drain]
    by_cases h : 0 < emitInterval ∧ emitInterval ≤ t
    · rw [dif_pos h]
      have ht2 : 0 ≤ t - emitInterval := by linarith [h.2]
      have hfl : ⌊(t - emitInterval) / emitInterval⌋ = ⌊t / emitInterval⌋ - 1 := by
        rw [sub_div, div_self (ne_of_gt hi)]
        rw [show ⌊t / emitInterval - 1⌋ = ⌊t / emitInterval - ((1 : ℤ) : ℚ)⌋ by norm_num,
          Int.floor_sub_int]
      have hmeas : (⌊(t - emitInterval) / emitInterval⌋).toNat ≤ n := by
        omega
      obtain ⟨e1, e2, e3⟩ := ih (t - emitInterval) ht2 hmeas
      refine ⟨?_, e2, e3⟩
      push_cast
      linarith [e1]
    · rw [dif_neg h]
      have hlt : t < emitInterval := by
        rcases not_and_or.mp h with h2 | h2
        · exact absurd hi h2
        · linarith [not_le.mp h2]
      exact ⟨by push_cast; ring, ht, hlt⟩

/-- One frame update of a running emitter with a positive emit rate: the
accumulator becomes the old accumulator plus the elapsed time minus one
interval per timed emission, and is left in [0, interval); the running
flag and config are untouched. -/
theorem update_step (e : ParticleEmitter) (delta : ℚ) (sample : ℕ → PConfig)
    (ha : e.active = true) (ht : 0 ≤ e.emitTimer) (hδ : 0 ≤ delta)
    (hr : 0 < e.config.emitRate) :
    (e.update delta sample).1.emitTimer =
        e.emitTimer + delta - ((e.update delta sample).2 : ℚ) * (1 / e.config.emitRate) ∧
      0 ≤ (e.update delta sample).1.emitTimer ∧
      (e.update delta sample).1.emitTimer < 1 / e.config.emitRate ∧
      (e.update delta sample).1.active = e.active ∧
      (e.update delta sample).1.config = e.config := by
  have hi : 0 < 1 / e.config.emitRate := by positivity
  have ht2 : 0 ≤ e.emitTimer + delta := by linarith
  obtain ⟨d1, d2, d3⟩ := drain_spec (1 / e.config.emitRate) hi (e.emitTimer + delta) ht2
  rw [ParticleEmitter.update]
  rw [ha]
  simp only [Bool.true_eq_false, if_false]
  exact ⟨d1, d2, d3, by trivial, by trivial⟩

/-- Feeding nonnegative deltas to a running emitter keeps the accumulator
within [0, interval) and drains exactly one interval per emission. -/
theorem feedDeltas_invariant (sample : ℕ → PConfig) (ds : List ℚ) :
    ∀ e : ParticleEmitter,
      e.active = true → 0 ≤ e.emitTimer → e.emitTimer < 1 / e.config.emitRate →
      0 < e.config.emitRate → (∀ d ∈ ds, 0 ≤ d) →
      (feedDeltas e sample ds).1.emitTimer =
          e.emitTimer + ds.sum - ((feedDeltas e sample ds).2 : ℚ) * (1 / e.config.emitRate) ∧
        0 ≤ (feedDeltas e sample ds).1.emitTimer ∧
        (feedDeltas e sample ds).1.emitTimer < 1 / e.config.emitRate := by
  induction ds with
  | nil =>
    intro e ha ht hlt hr hds
    refine ⟨?_, ht, hlt⟩
    simp [feedDeltas]
  | cons d ds ih =>
    intro e ha ht hlt hr hds
    have hd0 : 0 ≤ d := hds d (List.mem_cons_self d ds)
    obtain ⟨s1, s2, s3, s4, s5⟩ := update_step e d sample ha ht hd0 hr
    have ha2 : (e.update d sample).1.active = true := by rw [s4, ha]
    have hr2 : 0 < (e.update d sample).1.config.emitRate := by rw [s5]; exact hr
    have hlt2 : (e.update d sample).1.emitTimer < 1 / (e.update d sample).1.config.emitRate := by
      rw [s5]; exact s3
    have hds2 : ∀ x ∈ ds, (0 : ℚ) ≤ x := fun x hx => hds x (List.mem_cons_of_mem d hx)
    obtain ⟨i1, i2, i3⟩ := ih (e.update d sample).1 ha2 s2 hlt2 hr2 hds2
    rw [s5] at i1 i3
    constructor
    · show (feedDeltas (e.update d sample).1 sample ds).1.emitTimer =
        e.emitTimer + (d :: ds).sum -
          (((e.update d sample).2 + (feedDeltas (e.update d sample).1 sample ds).2 : ℕ) : ℚ) *
            (1 / e.config.emitRate)
      rw [i1, s1, List.sum_cons]
      push_cast
      ring
    · exact ⟨i2, i3⟩

/-- C2: for every preset with a positive emitRate and every way of
chunking a total elapsed time into positive per-frame increments, the
total number of timed emissions the update loop performs equals the floor
of total-time times emitRate: the accumulator carries the remainder
across calls, so the cadence is independent of the chunking. -/
theorem update_cadence (config : ParticlePreset) (sample : ℕ → PConfig) (ds : List ℚ)
    (hr : 0 < config.emitRate) (hds : ∀ d ∈ ds, 0 < d) :
    (feedDeltas (mkParticleEmitter config sample) sample ds).2 =
      ⌊ds.sum * config.emitRate⌋₊ := by
  have ha : (mkParticleEmitter config sample).active = true := rfl
  have ht : (0 : ℚ) ≤ (mkParticleEmitter config sample).emitTimer := le_refl 0
  have hcfg : (mkParticleEmitter config sample).config = config := rfl
  have hr2 : 0 < (mkParticleEmitter config sample).config.emitRate := hr
  have hlt : (mkParticleEmitter config sample).emitTimer <
      1 / (mkParticleEmitter config sample).config.emitRate := by
    show (0 : ℚ) < 1 / config.emitRate
    positivity
  have hds2 : ∀ d ∈ ds, (0 : ℚ) ≤ d := fun d hd => le_of_lt (hds d hd)
  obtain ⟨i1, i2, i3⟩ := feedDeltas_invariant sample ds (mkParticleEmitter config sample)
    ha ht hlt hr2 hds2
  rw [hcfg] at i1 i3
  have hT : (0 : ℚ) ≤ ds.sum := List.sum_nonneg hds2
  have hzero : (mkParticleEmitter config sample).emitTimer = 0 := rfl
  rw [hzero, zero_add] at i1
  set k := (feedDeltas (mkParticleEmitter config sample) sample ds).2 with hk
  symm
  rw [Nat.floor_eq_iff (by positivity)]
  constructor
  · have h1 : (k : ℚ) * (1 / config.emitRate) ≤ ds.sum := by
      rw [i1] at i2
      linarith
    calc (k : ℚ) = (k : ℚ) * (1 / config.emitRate) * config.emitRate := by
          field_simp
      _ ≤ ds.sum * config.emitRate := by
          exact mul_le_mul_of_nonneg_right h1 (le_of_lt hr)
  · have h2 : ds.sum < ((k : ℚ) + 1) * (1 / config.emitRate) := by
      rw [i1] at i3
      nlinarith
    calc ds.sum * config.emitRate
        < ((k : ℚ) + 1) * (1 / config.emitRate) * config.emitRate := by
          exact mul_lt_mul_of_pos_right h2 hr
      _ = (k : ℚ) + 1 := by field_simp

/-- Closed instance of update_cadence: the sparkle preset emits 5 per
second; 0.6 seconds fed as two 0.3-second frames yields exactly 3 timed
emissions. -/
theorem update_cadence_witness :
    (feedDeltas (mkParticleEmitter sparklePreset defaultSample) defaultSample
      [3 / 10, 3 / 10]).2 = 3 := by
  have h := update_cadence sparklePreset defaultSample [3 / 10, 3 / 10]
    (by norm_num [sparklePreset]) (by norm_num)
  rw [h]
  norm_num [sparklePreset]

/-- C7: for every house identifier outside the known set, createHouseEmitter
resolves the sparkle preset and the component resolves the shadows color
theme, without error (both lookups are total functions, so the same
identifier yields the same result on every call); for identifiers in the
known set the mapped preset name and theme are returned (the lookups hit
their table entry rather than the fallback). -/
theorem house_fallback (house : String) :
    (house ∉ knownHouses →
        createHouseEmitterConfig house = some sparklePreset ∧
        houseColorsFor house = shadowsTheme) ∧
    (house ∈ knownHouses →
        HOUSE_PARTICLES.lookup house = some (housePresetName house) ∧
        HOUSE_COLORS.lookup house = some (houseColorsFor house)) := by
  constructor
  · intro h
    simp only [knownHouses, List.mem_cons, List.not_mem_nil, or_false, not_or] at h
    obtain ⟨h1, h2, h3, h4, h5, h6, h7, h8, h9, h10, h11, h12, h13, h14⟩ := h
    have hp : HOUSE_PARTICLES.lookup house = none := by
      simp [HOUSE_PARTICLES, List.lookup, beq_false_of_ne h1, beq_false_of_ne h2,
        beq_false_of_ne h3, beq_false_of_ne h4, beq_false_of_ne h5, beq_false_of_ne h6,
        beq_false_of_ne h7, beq_false_of_ne h8, beq_false_of_ne h9, beq_false_of_ne h10,
        beq_false_of_ne h11, beq_false_of_ne h12, beq_false_of_ne h13, beq_false_of_ne h14]
    have hc : HOUSE_COLORS.lookup house = none := by
      simp [HOUSE_COLORS, List.lookup, beq_false_of_ne h1, beq_false_of_ne h2,
        beq_false_of_ne h3, beq_false_of_ne h4, beq_false_of_ne h5, beq_false_of_ne h6,
        beq_false_of_ne h7, beq_false_of_ne h8, beq_false_of_ne h9, beq_false_of_ne h10,
        beq_false_of_ne h11, beq_false_of_ne h12, beq_false_of_ne h13, beq_false_of_ne h14]
    constructor
    · rw [createHouseEmitterConfig, housePresetName, hp]
      simp [PARTICLE_PRESETS, List.lookup]
    · rw [houseColorsFor, hc]
      rfl
  · intro h
    simp only [knownHouses, List.mem_cons, List.not_mem_nil, or_false] at h
    rcases h with rfl | rfl | rfl | rfl | rfl | rfl | rfl | rfl | rfl | rfl | rfl | rfl |
      rfl | rfl <;> exact ⟨by decide, by decide⟩

/-- Closed instance of house_fallback: an unknown house resolves the
sparkle preset and the shadows theme, a known house hits its own table
entries. -/
theorem house_fallback_witness :
    (createHouseEmitterConfig "korgcrave" = some sparklePreset ∧
      houseColorsFor "korgcrave" = shadowsTheme) ∧
    (HOUSE_PARTICLES.lookup "brobnar" = some (housePresetName "brobnar") ∧
      HOUSE_COLORS.lookup "brobnar" = some (houseColorsFor "brobnar")) :=
  ⟨(house_fallback "korgcrave").1 (by decide),
   (house_fallback "brobnar").2 (by decide)⟩

/-- For this color table truthiness of an entry coincides with presence:
no configured token color is 0. -/
theorem jsTruthy_tokenColors (t : String) :
    jsTruthyOpt (tokenColors.lookup t) = (tokenColors.lookup t).isSome := by
  simp only [tokenColors, List.lookup]
  repeat' split
  all_goals decide

/-- The running-index form of createTokenOverlay: starting the walk at any
index yields the qualifying entries, enumerated from that index, each
rendered by mkTokenDisc. -/
theorem createTokenOverlay_go (tokens : List (String × ℤ)) :
    ∀ index : ℕ,
      createTokenOverlay tokens index =
        ((tokens.filter fun e =>
            decide (0 < e.2 ∧ jsTruthyOpt (tokenColors.lookup e.1) = true)).enumFrom index).map
          mkTokenDisc := by
  induction tokens with
  | nil => intro ix; rfl
  | cons e rest ih =>
    intro ix
    obtain ⟨tokenType, count⟩ := e
    by_cases h : 0 < count ∧ jsTruthyOpt (tokenColors.lookup tokenType) = true
    · rw [createTokenOverlay, if_pos h]
      have hfilter : (((tokenType, count) :: rest).filter fun e =>
          decide (0 < e.2 ∧ jsTruthyOpt (tokenColors.lookup e.1) = true)) =
          (tokenType, count) ::
            (rest.filter fun e =>
              decide (0 < e.2 ∧ jsTruthyOpt (tokenColors.lookup e.1) = true)) := by
        simp [List.filter_cons, h]
      rw [hfilter, List.enumFrom, List.map_cons, ih (ix + 1)]
      rfl
    · rw [createTokenOverlay, if_neg h]
      have hfilter : (((tokenType, count) :: rest).filter fun e =>
          decide (0 < e.2 ∧ jsTruthyOpt (tokenColors.lookup e.1) = true)) =
          rest.filter fun e =>
            decide (0 < e.2 ∧ jsTruthyOpt (tokenColors.lookup e.1) = true) := by
        simp [List.filter_cons, h]
      rw [hfilter, ih ix]

/-- C8: the token overlay renders exactly one disc per token entry whose
count is positive and whose type has a recognized (truthy, here equivalent
to present) color, in entry order, the i-th rendered disc sitting at grid
cell (i mod 3, i div 3); zero counts and unrecognized types are skipped
without error.  In particular damage 2, amber 3, unknownType 5 yields
exactly two discs at columns 0 and 1 of row 0. -/
theorem createTokenOverlay_spec :
    (∀ tokens : List (String × ℤ),
        createTokenOverlay tokens 0 =
          ((tokens.filter fun e =>
              decide (0 < e.2 ∧ jsTruthyOpt (tokenColors.lookup e.1) = true)).enum).map
            mkTokenDisc) ∧
    (∀ t : String, jsTruthyOpt (tokenColors.lookup t) = (tokenColors.lookup t).isSome) ∧
    createTokenOverlay [("damage", 2), ("amber", 3), ("unknownType", 5)] 0 =
      [{ tokenType := "damage", count := 2, color := 0xff0000, col := 0, row := 0 },
       { tokenType := "amber", count := 3, color := 0xffd700, col := 1, row := 0 }] := by
  refine ⟨?_, jsTruthy_tokenColors, by decide⟩
  intro tokens
  rw [createTokenOverlay_go tokens 0]
  rfl

/-- Rounding a channel value that is already an integer is the identity. -/
theorem jsRound_intCast (z : ℤ) : jsRound ((z : ℚ)) = z := by
  rw [jsRound]
  apply Int.floor_eq_iff.mpr
  constructor
  · linarith
  · linarith

/-- Channel split and repack: for a 24-bit color the three channels are in
[0, 255] and recompose to the color. -/
theorem channel_decomp (c : ℤ) (h0 : 0 ≤ c) (h1 : c < 0x1000000) :
    chR c * 0x10000 + chG c * 0x100 + chB c = c ∧
    0 ≤ chR c ∧ chR c ≤ 255 ∧ 0 ≤ chG c ∧ chG c ≤ 255 ∧ 0 ≤ chB c ∧ chB c ≤ 255 := by
  unfold chR chG chB
  omega

/-- A rounded linear interpolant of two channel values in [0, 255] stays
in [0, 255]. -/
theorem jsRound_channel_bounds {a b : ℤ} (f : ℚ) (hf0 : 0 ≤ f) (hf1 : f ≤ 1)
    (ha0 : 0 ≤ a) (ha1 : a ≤ 255) (hb0 : 0 ≤ b) (hb1 : b ≤ 255) :
    0 ≤ jsRound ((a : ℚ) + ((b : ℚ) - (a : ℚ)) * f) ∧
    jsRound ((a : ℚ) + ((b : ℚ) - (a : ℚ)) * f) ≤ 255 := by
  have ha0q : (0 : ℚ) ≤ (a : ℚ) := by exact_mod_cast ha0
  have ha1q : (a : ℚ) ≤ 255 := by exact_mod_cast ha1
  have hb0q : (0 : ℚ) ≤ (b : ℚ) := by exact_mod_cast hb0
  have hb1q : (b : ℚ) ≤ 255 := by exact_mod_cast hb1
  have h1 : (0 : ℚ) ≤ (a : ℚ) + ((b : ℚ) - a) * f := by nlinarith
  have h2 : (a : ℚ) + ((b : ℚ) - a) * f ≤ 255 := by nlinarith
  constructor
  · rw [jsRound]
    apply Int.floor_nonneg.mpr
    linarith
  · rw [jsRound]
    have hlt : ⌊(a : ℚ) + ((b : ℚ) - a) * f + 1 / 2⌋ < 256 := by
      apply Int.floor_lt.mpr
      push_cast
      linarith
    omega

/-- C9: for arbitrary 24-bit colors, lerpColor at fraction 1 returns the
second color exactly and at fraction 0 the first color exactly; and for
every fraction in [0, 1] the R, G and B channels of the result are
exactly the independently rounded linear interpolants of the respective
input channels, packed in the fixed R, G, B order. -/
theorem lerpColor_spec (c1 c2 : ℤ) (h10 : 0 ≤ c1) (h11 : c1 < 0x1000000)
    (h20 : 0 ≤ c2) (h21 : c2 < 0x1000000) :
    lerpColor c1 c2 1 = c2 ∧ lerpColor c1 c2 0 = c1 ∧
    ∀ f : ℚ, 0 ≤ f → f ≤ 1 →
      chR (lerpColor c1 c2 f) =
          jsRound ((chR c1 : ℚ) + ((chR c2 : ℚ) - (chR c1 : ℚ)) * f) ∧
      chG (lerpColor c1 c2 f) =
          jsRound ((chG c1 : ℚ) + ((chG c2 : ℚ) - (chG c1 : ℚ)) * f) ∧
      chB (lerpColor c1 c2 f) =
          jsRound ((chB c1 : ℚ) + ((chB c2 : ℚ) - (chB c1 : ℚ)) * f) := by
  obtain ⟨dc1, r10, r11, g10, g11, b10, b11⟩ := channel_decomp c1 h10 h11
  obtain ⟨dc2, r20, r21, g20, g21, b20, b21⟩ := channel_decomp c2 h20 h21
  refine ⟨?_, ?_, ?_⟩
  · rw [lerpColor]
    rw [show (chR c1 : ℚ) + ((chR c2 : ℚ) - (chR c1 : ℚ)) * 1 = (chR c2 : ℚ) by ring,
      show (chG c1 : ℚ) + ((chG c2 : ℚ) - (chG c1 : ℚ)) * 1 = (chG c2 : ℚ) by ring,
      show (chB c1 : ℚ) + ((chB c2 : ℚ) - (chB c1 : ℚ)) * 1 = (chB c2 : ℚ) by ring,
      jsRound_intCast, jsRound_intCast, jsRound_intCast]
    linarith
  · rw [lerpColor]
    rw [show (chR c1 : ℚ) + ((chR c2 : ℚ) - (chR c1 : ℚ)) * 0 = (chR c1 : ℚ) by ring,
      show (chG c1 : ℚ) + ((chG c2 : ℚ) - (chG c1 : ℚ)) * 0 = (chG c1 : ℚ) by ring,
      show (chB c1 : ℚ) + ((chB c2 : ℚ) - (chB c1 : ℚ)) * 0 = (chB c1 : ℚ) by ring,
      jsRound_intCast, jsRound_intCast, jsRound_intCast]
    linarith
  · intro f hf0 hf1
    obtain ⟨rr0, rr1⟩ := jsRound_channel_bounds f hf0 hf1 r10 r11 r20 r21
    obtain ⟨gg0, gg1⟩ := jsRound_channel_bounds f hf0 hf1 g10 g11 g20 g21
    obtain ⟨bb0, bb1⟩ := jsRound_channel_bounds f hf0 hf1 b10 b11 b20 b21
    rw [lerpColor]
    refine ⟨?_, ?_, ?_⟩ <;>
      (simp only [chR, chG, chB] at rr0 rr1 gg0 gg1 bb0 bb1 ⊢; omega)

/-- Closed instance of lerpColor_spec at the fire-preset colors. -/
theorem lerpColor_spec_witness :
    lerpColor 0xff6600 0xff0000 1 = 0xff0000 ∧ lerpColor 0xff6600 0xff0000 0 = 0xff6600 :=
  ⟨(lerpColor_spec 0xff6600 0xff0000 (by norm_num) (by norm_num) (by norm_num)
      (by norm_num)).1,
   (lerpColor_spec 0xff6600 0xff0000 (by norm_num) (by norm_num) (by norm_num)
      (by norm_num)).2.1⟩

/-- C10: a size prop outside the enumerated set, including an absent one,
resolves to the normal profile of width 65, height 91, scale 1, and the
surface is styled with exactly those pixel dimensions; the resolution
never yields undefined dimensions. -/
theorem cardSize_fallback (size : Option String)
    (h : ∀ name ∈ size, name ∉ ["small", "normal", "large", "x-large"]) :
    cardSizeFor size = CARD_SIZES_normal ∧ surfaceDims size = (65, 91) := by
  have hmain : cardSizeFor size = CARD_SIZES_normal := by
    cases size with
    | none =>
      simp [cardSizeFor, CARD_SIZES, List.lookup]
    | some name =>
      have h1 := h name rfl
      simp only [List.mem_cons, List.not_mem_nil, or_false, not_or] at h1
      obtain ⟨hs, hn, hl, hx⟩ := h1
      simp [cardSizeFor, CARD_SIZES, List.lookup, beq_false_of_ne hs, beq_false_of_ne hn,
        beq_false_of_ne hl, beq_false_of_ne hx]
  refine ⟨hmain, ?_⟩
  rw [surfaceDims, hmain]
  rfl

/-- Closed instance of cardSize_fallback at the unknown size name huge. -/
theorem cardSize_fallback_witness :
    cardSizeFor (some "huge") = CARD_SIZES_normal ∧ surfaceDims (some "huge") = (65, 91) :=
  cardSize_fallback (some "huge") (by
    intro name hname
    have h2 : "huge" = name := Option.some.inj hname
    subst h2
    decide)
